import Mathlib

/-!
Shallow embedding of the tool-calling agent loop of this repository.

The embedded code is `src/standard_client.py` (the `convert_tool_format`
helper and `MCPClient.process_query`) together with the second dialect
converter `convert_tool_format` of `src/client.py`.  External collaborators
(the OpenAI chat-completion endpoint, the MCP tool server, `json.loads`)
are modelled as parameters of an `Env` record; the orchestration loop, the
conversation list `self.messages`, the round counter `tool_call_count` and
the accumulated `final_text` are embedded directly.

Python values that can be `None` are `Option`; a Python function that can
raise is `Except String`; the `TypeError` that `"\n".join` raises when
`final_text` contains `None` is modelled by `joinFinalText` returning
`none`.
-/

/-- JSON values, as produced by `json.loads` and stored in MCP tool
descriptors (`tool.inputSchema`).  Numbers are collapsed to `Int`, which is
enough for every claim. -/
inductive Json where
  | null : Json
  | bool (b : Bool) : Json
  | num (n : Int) : Json
  | str (s : String) : Json
  | arr (elems : List Json) : Json
  | obj (fields : List (String × Json)) : Json

/-- Python truthiness on JSON values: `None`, `False`, `0`, `""`, `[]` and
`\x7b\x7d` are falsy, everything else truthy. -/
def Json.falsy : Json → Bool
  | .null => true
  | .bool b => !b
  | .num n => n == 0
  | .str s => s.isEmpty
  | .arr elems => elems.isEmpty
  | .obj fields => fields.isEmpty

/-- Python `x or d` where `x` is the result of `dict.get` (so `None` when
the key is absent): the default is used when the value is absent or falsy. -/
def pyOr (x : Option Json) (d : Json) : Json :=
  match x with
  | none => d
  | some v => if v.falsy then d else v

/-- `j.field? k` is Python `j[k]`-style lookup that yields `none` when `j`
is not a dict or has no key `k` (used only to state theorems about the
converter outputs). -/
def Json.field? (j : Json) (k : String) : Option Json :=
  match j with
  | .obj fields => fields.lookup k
  | _ => none

/-- An MCP tool descriptor as consumed by both converters: `name`,
optional `description`, and a JSON `inputSchema` that may fail to be a
dict. -/
structure MCPTool where
  name : String
  description : Option String
  inputSchema : Json

namespace Client

/-- `convert_tool_format` of `src/client.py`: the flat "Responses API"
(catalog) dialect.  `properties`/`required` default to empty containers
when the schema is not a dict or the key is absent or falsy; the
description is passed through unguarded (may be `null`). -/
def convert_tool_format (tool : MCPTool) : Json :=
  let properties : Json :=
    match tool.inputSchema with
    | .obj fields => pyOr (fields.lookup "properties") (.obj [])
    | _ => .obj []
  let required : Json :=
    match tool.inputSchema with
    | .obj fields => pyOr (fields.lookup "required") (.arr [])
    | _ => .arr []
  .obj [("type", .str "function"),
        ("name", .str tool.name),
        ("description",
          match tool.description with
          | none => .null
          | some d => .str d),
        ("parameters", .obj [("type", .str "object"),
                             ("properties", properties),
                             ("required", required)])]

end Client

namespace StandardClient

/-- `MAX_TOOL_CALLS = 5` of `src/standard_client.py` ("Limit to prevent
infinite loops"). -/
def MAX_TOOL_CALLS : Nat := 5

/-- `convert_tool_format` of `src/standard_client.py`: the nested Chat
Completions (call-site) dialect.  Same `properties`/`required`
normalization; the description is guarded by `or ""` (never null). -/
def convert_tool_format (tool : MCPTool) : Json :=
  let properties : Json :=
    match tool.inputSchema with
    | .obj fields => pyOr (fields.lookup "properties") (.obj [])
    | _ => .obj []
  let required : Json :=
    match tool.inputSchema with
    | .obj fields => pyOr (fields.lookup "required") (.arr [])
    | _ => .arr []
  .obj [("type", .str "function"),
        ("function", .obj [
          ("name", .str tool.name),
          ("description", .str (tool.description.getD "")),
          ("parameters", .obj [("type", .str "object"),
                               ("properties", properties),
                               ("required", required)])])]

/-- `tool_call.function` of a Chat Completions response: a tool name and
the raw (undecoded) argument text, which Python may hand over as `None`. -/
structure ToolCallFunction where
  name : String
  arguments : Option String

/-- One requested tool call of an assistant response: correlation id plus
the function part. -/
structure ToolCall where
  id : String
  function : ToolCallFunction

/-- `response.choices[0].message`: optional text content and an optional
list of requested tool calls (`None` and the empty list are different in
the source, which tests `is not None`). -/
structure ModelMessage where
  content : Option String
  tool_calls : Option (List ToolCall)

/-- Content of a `role: tool` message appended by the loop: either one of
the two error strings (a Python `str`) or `result.content` of a successful
MCP call (a list of content blocks). -/
inductive ToolTurnContent where
  | text (s : String) : ToolTurnContent
  | blocks (content : List Json) : ToolTurnContent

/-- One entry of `self.messages`. -/
inductive Turn where
  | system (content : String) : Turn
  | user (content : String) : Turn
  | assistant (message : ModelMessage) : Turn
  | tool (tool_call_id : String) (content : ToolTurnContent) : Turn

/-- The system prompt appended at the start of `process_query`. -/
def systemPrompt : String :=
  "You are a helpful assistant with access to tools.\n\nRules:\n1. Call tools when you need information. Use valid JSON for arguments.\n2. Once you have enough information, respond with a final answer (no more tool calls).\n3. Never call a tool twice with the same arguments.\n4. Keep search queries short and specific (3-6 words work best)."

/-- The forced-final user turn appended once the round cap is reached. -/
def forcedFinalPrompt : String :=
  "Please provide your final answer based on the information gathered so far. Do not make any more tool calls."

/-- The Stopped marker appended to `final_text` at the round cap. -/
def stoppedMsg : String :=
  "[Stopped: exceeded maximum of " ++ toString MAX_TOOL_CALLS ++ " tool call rounds]"

/-- The error string sent back to the model when `json.loads` raises
`JSONDecodeError` with message `e`. -/
def invalidJsonMsg (e : String) : String :=
  "Error: Invalid JSON in tool arguments. Please try again with valid JSON. Details: " ++ e

/-- The error string stored when `session.call_tool` raises with message
`e`. -/
def execErrorMsg (e : String) : String :=
  "Error executing tool: " ++ e

mutual

/-- Python `str` of a decoded-arguments value, used by the
`[Calling tool ...]` announcement f-string. -/
def Json.render : Json → String
  | .null => "None"
  | .bool b => if b then "True" else "False"
  | .num n => toString n
  | .str s => "\x27" ++ s ++ "\x27"
  | .arr elems => "[" ++ Json.renderArr elems ++ "]"
  | .obj fields => "\x7b" ++ Json.renderObj fields ++ "\x7d"

/-- Comma-separated rendering of a JSON array body. -/
def Json.renderArr : List Json → String
  | [] => ""
  | [x] => Json.render x
  | x :: xs => Json.render x ++ ", " ++ Json.renderArr xs

/-- Comma-separated rendering of a JSON object body. -/
def Json.renderObj : List (String × Json) → String
  | [] => ""
  | [(k, v)] => "\x27" ++ k ++ "\x27: " ++ Json.render v
  | (k, v) :: fs => "\x27" ++ k ++ "\x27: " ++ Json.render v ++ ", " ++ Json.renderObj fs

end

/-- The announcement appended to `final_text` after a successful
invocation. -/
def callingMsg (tool_name : String) (tool_args : Json) : String :=
  "[Calling tool " ++ tool_name ++ " with args " ++ Json.render tool_args ++ "]"

/-- The external collaborators of `process_query`.  `decodeJson` is
`json.loads` (error = `JSONDecodeError` message); `callTool` is
`session.call_tool` (error = raised exception message, ok =
`result.content`); `tools` is the `list_tools` response; `respond i` is
the message of the `i`-th chat-completion request issued during this
query (the model oracle). -/
structure Env where
  decodeJson : String → Except String Json
  callTool : String → Json → Except String (List Json)
  tools : List MCPTool
  respond : Nat → ModelMessage

/-- The mutable data threaded through the per-batch loop over
`content.tool_calls`: `self.messages`, `final_text` (entries are `none`
when Python appended `None`) and the trace of Tool Invoker invocations
actually performed (name, decoded arguments). -/
structure BatchState where
  messages : List Turn
  finalText : List (Option String)
  invocations : List (String × Json)

/-- The decode step `tool_args = json.loads(tool_args_raw) if
tool_args_raw else ...` : a falsy raw payload (absent or empty string)
decodes to the empty dict without touching `json.loads`. -/
def decodeArgs (env : Env) (tool_args_raw : Option String) : Except String Json :=
  match tool_args_raw with
  | none => .ok (.obj [])
  | some s => if s.isEmpty then .ok (.obj []) else env.decodeJson s

/-- One iteration of the loop body over `content.tool_calls`: decode the
raw arguments (a decode failure appends one corrective tool turn and
continues), otherwise invoke the tool (an exception is caught and stored
as an error-status tool turn; a success also appends the announcement to
`final_text`). -/
def processToolCall (env : Env) (st : BatchState) (tc : ToolCall) : BatchState :=
  let tool_name := tc.function.name
  match decodeArgs env tc.function.arguments with
  | .error e =>
      { st with messages := st.messages ++ [.tool tc.id (.text (invalidJsonMsg e))] }
  | .ok tool_args =>
      match env.callTool tool_name tool_args with
      | .ok rcontent =>
          { messages := st.messages ++ [.tool tc.id (.blocks rcontent)],
            finalText := st.finalText ++ [some (callingMsg tool_name tool_args)],
            invocations := st.invocations ++ [(tool_name, tool_args)] }
      | .error e =>
          { messages := st.messages ++ [.tool tc.id (.text (execErrorMsg e))],
            finalText := st.finalText,
            invocations := st.invocations ++ [(tool_name, tool_args)] }

/-- The whole loop over `content.tool_calls`, in request order. -/
def processBatch (env : Env) (st : BatchState) (tcs : List ToolCall) : BatchState :=
  tcs.foldl (processToolCall env) st

/-- One chat-completion request as issued by the loop: the `tools`
parameter (absent in the forced-final request), the `max_tokens` parameter
(absent in the first request) and the messages snapshot passed. -/
structure ModelRequest where
  tools : Option (List Json)
  max_tokens : Option Nat
  messages : List Turn

/-- Everything observable about one `process_query` run: the final
`self.messages`, the trace of completion requests, the trace of Tool
Invoker invocations, the final `tool_call_count`, and the returned string
(`none` models the `TypeError` that joining `final_text` raises when it
contains `None`). -/
structure QueryResult where
  messages : List Turn
  requests : List ModelRequest
  invocations : List (String × Json)
  rounds : Nat
  result : Option String

/-- Joining `final_text` with newlines: succeeds exactly when every entry
is an actual string. -/
def joinFinalText (xs : List (Option String)) : Option String :=
  if xs.all Option.isSome then
    some (String.intercalate "\n" (xs.map (fun x => x.getD "")))
  else
    none

/-- The main `while True` loop of `process_query`.  `response` is the
current completion message (appended again at the top of each iteration,
exactly as the source does), `reqIdx` indexes the next completion request
into `env.respond`, and `tool_call_count` is the round counter. -/
def loop (env : Env) (available_tools : List Json) (response : ModelMessage)
    (reqIdx : Nat) (messages : List Turn) (requests : List ModelRequest)
    (final_text : List (Option String)) (invocations : List (String × Json))
    (tool_call_count : Nat) : QueryResult :=
  let content := response
  let messages := messages ++ [.assistant content]
  if tool_call_count ≥ MAX_TOOL_CALLS then
    let final_text := final_text ++ [some stoppedMsg]
    let messages := messages ++ [.user forcedFinalPrompt]
    let final_response := env.respond reqIdx
    { messages := messages,
      requests := requests ++ [{ tools := none, max_tokens := some 1000, messages := messages }],
      invocations := invocations,
      rounds := tool_call_count,
      result := joinFinalText (final_text ++ [some (final_response.content.getD "")]) }
  else
    match content.tool_calls with
    | some tcs =>
        let tool_call_count := tool_call_count + 1
        let st := processBatch env { messages := messages, finalText := final_text, invocations := invocations } tcs
        let req : ModelRequest := { tools := some available_tools, max_tokens := some 1000, messages := st.messages }
        loop env available_tools (env.respond reqIdx) (reqIdx + 1)
          st.messages (requests ++ [req]) st.finalText st.invocations tool_call_count
    | none =>
        { messages := messages,
          requests := requests,
          invocations := invocations,
          rounds := tool_call_count,
          result := joinFinalText (final_text ++ [content.content]) }
termination_by MAX_TOOL_CALLS - tool_call_count
decreasing_by simp only [MAX_TOOL_CALLS] at *; omega

/-- `MCPClient.process_query`: append the system and user turns, convert
the tool catalog, issue the first completion (no `max_tokens`), append its
message, then run the loop with empty `final_text` and
`tool_call_count = 0`. -/
def processQuery (env : Env) (messages0 : List Turn) (query : String) : QueryResult :=
  let messages := messages0 ++ [.system systemPrompt]
  let messages := messages ++ [.user query]
  let available_tools := env.tools.map convert_tool_format
  let response := env.respond 0
  let req0 : ModelRequest := { tools := some available_tools, max_tokens := none, messages := messages }
  let messages := messages ++ [.assistant response]
  loop env available_tools response 1 messages [req0] [] [] 0

end StandardClient

/-- The `properties` value inside the call-site dialect output. -/
def callSiteProperties (t : MCPTool) : Option Json :=
  ((StandardClient.convert_tool_format t).field? "function").bind
    (fun f => ((f.field? "parameters").bind (fun p => p.field? "properties")))

/-- The `required` value inside the call-site dialect output. -/
def callSiteRequired (t : MCPTool) : Option Json :=
  ((StandardClient.convert_tool_format t).field? "function").bind
    (fun f => ((f.field? "parameters").bind (fun p => p.field? "required")))

/-- The `description` value inside the call-site dialect output. -/
def callSiteDescription (t : MCPTool) : Option Json :=
  ((StandardClient.convert_tool_format t).field? "function").bind
    (fun f => f.field? "description")

/-- The `properties` value inside the catalog dialect output. -/
def catalogProperties (t : MCPTool) : Option Json :=
  ((Client.convert_tool_format t).field? "parameters").bind
    (fun p => p.field? "properties")

/-- The `required` value inside the catalog dialect output. -/
def catalogRequired (t : MCPTool) : Option Json :=
  ((Client.convert_tool_format t).field? "parameters").bind
    (fun p => p.field? "required")

/-- A descriptor schema omits key `k` when the schema is not a dict or
has no entry for `k`. -/
def schemaOmits (t : MCPTool) (k : String) : Prop :=
  match t.inputSchema with
  | .obj fields => fields.lookup k = none
  | _ => True

/-- Descriptor used as concrete input for the normalization theorem:
non-dict schema, missing description. -/
def tC5 : MCPTool := { name := "search", description := none, inputSchema := .num 3 }

namespace StandardClient

/-- Response used by the C1 scenario: the forced-final output even carries
tool-call requests, which are ignored. -/
def respC1 : ModelMessage := { content := some "forced answer", tool_calls := some [] }

/-- Environment of the C1 scenario. -/
def envC1 : Env where
  decodeJson := fun _ => .error "unused"
  callTool := fun _ _ => .error "unused"
  tools := []
  respond := fun _ => respC1

/-- Environment of the C2 scenario: a first round with two tool calls, a
second round with one, then a final answer. -/
def envC2 : Env where
  decodeJson := fun _ => .error "bad"
  callTool := fun _ _ => .error "offline"
  tools := []
  respond := fun i =>
    match i with
    | 0 => { content := none,
             tool_calls := some [{ id := "a1", function := { name := "t", arguments := none } },
                                 { id := "a2", function := { name := "t", arguments := none } }] }
    | 1 => { content := none,
             tool_calls := some [{ id := "b1", function := { name := "t", arguments := none } }] }
    | _ => { content := some "done", tool_calls := none }

/-- Environment of the C3 scenario: `json.loads` always fails. -/
def envC3 : Env where
  decodeJson := fun _ => .error "Expecting value: line 1 column 1 (char 0)"
  callTool := fun _ _ => .ok []
  tools := []
  respond := fun _ => { content := some "x", tool_calls := none }

/-- Batch state of the C3 scenario. -/
def stC3 : BatchState := { messages := [], finalText := [], invocations := [] }

/-- Tool call with a malformed raw payload. -/
def tcC3 : ToolCall := { id := "call_9", function := { name := "search", arguments := some "oops" } }

/-- Environment of the C4 scenario: every tool invocation raises. -/
def envC4 : Env where
  decodeJson := fun _ => .ok (.obj [])
  callTool := fun _ _ => .error "boom"
  tools := []
  respond := fun i =>
    match i with
    | 0 => { content := none,
             tool_calls := some [{ id := "c1", function := { name := "t", arguments := none } }] }
    | _ => { content := some "done", tool_calls := none }

/-- Batch state of the C4 scenario. -/
def stC4 : BatchState := { messages := [], finalText := [], invocations := [] }

/-- Tool call of the C4 scenario. -/
def tcC4 : ToolCall := { id := "c1", function := { name := "t", arguments := none } }

/-- Environment of the C6 scenario: the model immediately answers with
text and no tool calls. -/
def envC6 : Env where
  decodeJson := fun _ => .error "unused"
  callTool := fun _ _ => .error "unused"
  tools := []
  respond := fun _ => { content := some "hi", tool_calls := none }

/-- Environment of the C8 failing input: the first response has no tool
calls and absent (`None`) content. -/
def envC8 : Env where
  decodeJson := fun _ => .error "unused"
  callTool := fun _ _ => .error "unused"
  tools := []
  respond := fun _ => { content := none, tool_calls := none }

/-- Same as `envC8` but with empty-string content. -/
def envC8empty : Env where
  decodeJson := fun _ => .error "unused"
  callTool := fun _ _ => .error "unused"
  tools := []
  respond := fun _ => { content := some "", tool_calls := none }

/-- Decoded arguments of the duplicated call in the C9 scenario. -/
def argsC9 : Json := .obj [("query", .str "martin moder")]

/-- Raw argument payload of the duplicated call in the C9 scenario. -/
def rawC9 : String := "\x7b\"query\": \"martin moder\"\x7d"

/-- First-round tool call of the C9 scenario. -/
def tcC9a : ToolCall :=
  { id := "call_1", function := { name := "search", arguments := some rawC9 } }

/-- Second-round tool call of the C9 scenario: same tool, identical
arguments, different correlation id. -/
def tcC9b : ToolCall :=
  { id := "call_2", function := { name := "search", arguments := some rawC9 } }

/-- Environment of the C9 scenario: the model requests the same tool with
identical arguments in two consecutive rounds, then answers. -/
def envC9 : Env where
  decodeJson := fun s =>
    if s = rawC9 then .ok argsC9 else .error "Expecting value: line 1 column 1 (char 0)"
  callTool := fun _ _ => .error "server offline"
  tools := []
  respond := fun i =>
    match i with
    | 0 => { content := none, tool_calls := some [tcC9a] }
    | 1 => { content := none, tool_calls := some [tcC9b] }
    | _ => { content := some "done", tool_calls := none }

/-- Batch state of the C9 witness: the identical invocation has already
happened. -/
def stC9 : BatchState := { messages := [], finalText := [], invocations := [("search", argsC9)] }

/-- Environment of the C10 scenario. -/
def envC10 : Env where
  decodeJson := fun _ => .error "unused"
  callTool := fun _ _ => .ok [.str "ok"]
  tools := []
  respond := fun _ => { content := some "x", tool_calls := none }

/-- Batch state of the C10 scenario. -/
def stC10 : BatchState := { messages := [], finalText := [], invocations := [] }

/-- Tool call with absent raw arguments. -/
def tcC10 : ToolCall := { id := "c0", function := { name := "noargs", arguments := none } }

end StandardClient

/-- The `or`-defaulting never produces `null` when the default is not
`null`. -/
theorem pyOr_ne_null (x : Option Json) (d : Json) (hd : d ≠ .null) :
    pyOr x d ≠ .null := by
  unfold pyOr
  cases x with
  | none => exact hd
  | some v =>
      dsimp only
      split
      · exact hd
      · intro hv
        subst hv
        simp [Json.falsy] at *

/-- Unfolding of the call-site `properties` accessor: it always holds the
normalized value. -/
theorem callSiteProperties_eq (t : MCPTool) :
    callSiteProperties t = some (match t.inputSchema with
      | .obj fields => pyOr (fields.lookup "properties") (.obj [])
      | _ => .obj []) := by
  obtain ⟨name, desc, schema⟩ := t
  cases schema <;>
    simp [callSiteProperties, StandardClient.convert_tool_format, Json.field?, List.lookup]

/-- Unfolding of the call-site `required` accessor. -/
theorem callSiteRequired_eq (t : MCPTool) :
    callSiteRequired t = some (match t.inputSchema with
      | .obj fields => pyOr (fields.lookup "required") (.arr [])
      | _ => .arr []) := by
  obtain ⟨name, desc, schema⟩ := t
  cases schema <;>
    simp [callSiteRequired, StandardClient.convert_tool_format, Json.field?, List.lookup]

/-- Unfolding of the call-site `description` accessor: always the guarded
string. -/
theorem callSiteDescription_eq (t : MCPTool) :
    callSiteDescription t = some (.str (t.description.getD "")) := by
  obtain ⟨name, desc, schema⟩ := t
  cases schema <;>
    simp [callSiteDescription, StandardClient.convert_tool_format, Json.field?, List.lookup]

/-- Unfolding of the catalog `properties` accessor. -/
theorem catalogProperties_eq (t : MCPTool) :
    catalogProperties t = some (match t.inputSchema with
      | .obj fields => pyOr (fields.lookup "properties") (.obj [])
      | _ => .obj []) := by
  obtain ⟨name, desc, schema⟩ := t
  cases schema <;>
    simp [catalogProperties, Client.convert_tool_format, Json.field?, List.lookup]

/-- Unfolding of the catalog `required` accessor. -/
theorem catalogRequired_eq (t : MCPTool) :
    catalogRequired t = some (match t.inputSchema with
      | .obj fields => pyOr (fields.lookup "required") (.arr [])
      | _ => .arr []) := by
  obtain ⟨name, desc, schema⟩ := t
  cases schema <;>
    simp [catalogRequired, Client.convert_tool_format, Json.field?, List.lookup]

namespace StandardClient

/-- One step of the per-batch loop only appends to `self.messages`. -/
theorem processToolCall_messages_mono (env : Env) (st : BatchState) (tc : ToolCall) :
    st.messages <+: (processToolCall env st tc).messages := by
  simp only [processToolCall]
  split
  · exact ⟨_, rfl⟩
  · split <;> exact ⟨_, rfl⟩

/-- The whole per-batch loop only appends to `self.messages`. -/
theorem processBatch_messages_mono (env : Env) (tcs : List ToolCall) :
    ∀ st : BatchState, st.messages <+: (processBatch env st tcs).messages := by
  induction tcs with
  | nil => intro st; exact ⟨[], by simp [processBatch]⟩
  | cons tc rest ih =>
      intro st
      exact (processToolCall_messages_mono env st tc).trans (ih (processToolCall env st tc))

/-- One step of the per-batch loop preserves well-formed `final_text`
entries (it appends only actual strings). -/
theorem processToolCall_finalText_all (env : Env) (st : BatchState) (tc : ToolCall)
    (h : st.finalText.all Option.isSome) :
    (processToolCall env st tc).finalText.all Option.isSome := by
  simp only [processToolCall]
  split
  · simpa using h
  · split <;> simp_all

/-- The whole per-batch loop preserves well-formed `final_text` entries. -/
theorem processBatch_finalText_all (env : Env) (tcs : List ToolCall) :
    ∀ st : BatchState, st.finalText.all Option.isSome →
      (processBatch env st tcs).finalText.all Option.isSome := by
  induction tcs with
  | nil => intro st h; exact h
  | cons tc rest ih =>
      intro st h
      exact ih _ (processToolCall_finalText_all env st tc h)

/-- Joining succeeds when every `final_text` entry is an actual string. -/
theorem joinFinalText_isSome (xs : List (Option String))
    (h : xs.all Option.isSome) : (joinFinalText xs).isSome := by
  simp [joinFinalText, h]

/-- The main loop only appends to `self.messages` (stated with explicit
fuel `n` bounding the remaining rounds). -/
theorem loop_messages_mono (env : Env) (avail : List Json) :
    ∀ (n : Nat) (resp : ModelMessage) (reqIdx : Nat) (msgs : List Turn)
      (reqs : List ModelRequest) (ft : List (Option String))
      (inv : List (String × Json)) (count : Nat),
      MAX_TOOL_CALLS - count ≤ n →
      msgs <+: (loop env avail resp reqIdx msgs reqs ft inv count).messages := by
  intro n
  induction n with
  | zero =>
      intro resp reqIdx msgs reqs ft inv count hn
      have h : count ≥ MAX_TOOL_CALLS := by omega
      rw [loop]
      simp only [h, ge_iff_le, if_true, if_pos]
      exact ⟨[.assistant resp, .user forcedFinalPrompt], by simp⟩
  | succ n ih =>
      intro resp reqIdx msgs reqs ft inv count hn
      rw [loop]
      by_cases h : count ≥ MAX_TOOL_CALLS
      · simp only [h, if_pos]
        exact ⟨[.assistant resp, .user forcedFinalPrompt], by simp⟩
      · simp only [h, if_neg, if_false]
        cases hc : resp.tool_calls with
        | none => exact ⟨[.assistant resp], rfl⟩
        | some tcs =>
            have hstep : msgs <+: msgs ++ [Turn.assistant resp] := ⟨[Turn.assistant resp], rfl⟩
            have hbatch := processBatch_messages_mono env tcs
              { messages := msgs ++ [.assistant resp], finalText := ft, invocations := inv }
            exact (hstep.trans hbatch).trans (ih _ _ _ _ _ _ _ (by omega))

/-- If every `final_text` entry so far is a string and every tool-free
oracle response carries string content, the loop returns an actual
string. -/
theorem loop_result_isSome (env : Env) (avail : List Json) :
    ∀ (n : Nat) (resp : ModelMessage) (reqIdx : Nat) (msgs : List Turn)
      (reqs : List ModelRequest) (ft : List (Option String))
      (inv : List (String × Json)) (count : Nat),
      MAX_TOOL_CALLS - count ≤ n →
      ft.all Option.isSome →
      (∀ i, (env.respond i).tool_calls = none → ((env.respond i).content).isSome) →
      (resp.tool_calls = none → resp.content.isSome) →
      ((loop env avail resp reqIdx msgs reqs ft inv count).result).isSome := by
  intro n
  induction n with
  | zero =>
      intro resp reqIdx msgs reqs ft inv count hn hft hor hresp
      have h : count ≥ MAX_TOOL_CALLS := by omega
      rw [loop]
      simp only [h, if_pos]
      exact joinFinalText_isSome _ (by simp_all)
  | succ n ih =>
      intro resp reqIdx msgs reqs ft inv count hn hft hor hresp
      rw [loop]
      by_cases h : count ≥ MAX_TOOL_CALLS
      · simp only [h, if_pos]
        exact joinFinalText_isSome _ (by simp_all)
      · simp only [h, if_neg, if_false]
        cases hc : resp.tool_calls with
        | none =>
            refine joinFinalText_isSome _ ?_
            have := hresp hc
            simp_all
        | some tcs =>
            refine ih _ _ _ _ _ _ _ (by omega) ?_ hor (hor reqIdx)
            exact processBatch_finalText_all env tcs
              { messages := msgs ++ [.assistant resp], finalText := ft, invocations := inv } hft

/-- The round counter counts batches: starting from `count` with `N`
further tool-call responses followed by a tool-free one, the loop ends
with `count + N`, whatever the batch sizes. -/
theorem loop_rounds (env : Env) (avail : List Json) :
    ∀ (N j : Nat) (msgs : List Turn) (reqs : List ModelRequest)
      (ft : List (Option String)) (inv : List (String × Json)) (count : Nat),
      count + N ≤ MAX_TOOL_CALLS →
      (∀ i, i < N → ((env.respond (j + i)).tool_calls).isSome) →
      (env.respond (j + N)).tool_calls = none →
      (loop env avail (env.respond j) (j + 1) msgs reqs ft inv count).rounds = count + N := by
  intro N
  induction N with
  | zero =>
      intro j msgs reqs ft inv count hle hsome hnone
      rw [loop]
      by_cases h : count ≥ MAX_TOOL_CALLS
      · simp [h]
      · simp only [h, if_neg, if_false]
        have hj : j + 0 = j := by omega
        rw [hj] at hnone
        rw [hnone]
        simp
  | succ N ih =>
      intro j msgs reqs ft inv count hle hsome hnone
      have h : ¬ count ≥ MAX_TOOL_CALLS := by omega
      rw [loop]
      simp only [h, if_neg, if_false]
      obtain ⟨tcs, htcs⟩ := Option.isSome_iff_exists.mp (by simpa using hsome 0 (by omega))
      rw [htcs]
      have hrec := ih (j + 1) (processBatch env
          { messages := msgs ++ [.assistant (env.respond j)], finalText := ft, invocations := inv } tcs).messages
        (reqs ++ [{ tools := some avail, max_tokens := some 1000,
                    messages := (processBatch env
                      { messages := msgs ++ [.assistant (env.respond j)], finalText := ft,
                        invocations := inv } tcs).messages }])
        (processBatch env
          { messages := msgs ++ [.assistant (env.respond j)], finalText := ft, invocations := inv } tcs).finalText
        (processBatch env
          { messages := msgs ++ [.assistant (env.respond j)], finalText := ft, invocations := inv } tcs).invocations
        (count + 1) (by omega) ?_ ?_
      · rw [hrec]
        omega
      · intro i hi
        have hs := hsome (i + 1) (by omega)
        have e : j + (i + 1) = j + 1 + i := by omega
        rwa [e] at hs
      · have e : j + (N + 1) = j + 1 + N := by omega
        rwa [e] at hnone

end StandardClient

namespace StandardClient

/-- Claim C1: when the round counter has reached the configured maximum
(which defaults to 5) at the point a model response is inspected, the
loop goes to forced-final: it appends the forced-final user turn, issues
exactly one more completion request with no tool catalog passed, performs
no further tool invocation, and folds that request output into the final
answer unconditionally. -/
theorem forced_final_at_cap (env : Env) (available_tools : List Json)
    (resp : ModelMessage) (reqIdx : Nat) (msgs : List Turn)
    (reqs : List ModelRequest) (ft : List (Option String))
    (inv : List (String × Json)) (count : Nat)
    (h : count ≥ MAX_TOOL_CALLS) :
    MAX_TOOL_CALLS = 5 ∧
    loop env available_tools resp reqIdx msgs reqs ft inv count =
      { messages := msgs ++ [.assistant resp, .user forcedFinalPrompt],
        requests := reqs ++ [{ tools := none,
                               max_tokens := some 1000,
                               messages := msgs ++ [.assistant resp, .user forcedFinalPrompt] }],
        invocations := inv,
        rounds := count,
        result := joinFinalText (ft ++ [some stoppedMsg,
          some ((env.respond reqIdx).content.getD "")]) } := by
  refine ⟨rfl, ?_⟩
  rw [loop]
  simp [h]

/-- Witness for C1 at the concrete cap value 5: the forced-final response
even requests tool calls, and is still treated as the final answer. -/
theorem forced_final_at_cap_witness :
    5 ≥ MAX_TOOL_CALLS ∧
    (MAX_TOOL_CALLS = 5 ∧
     loop envC1 [] respC1 1 [] [] [] [] 5 =
       { messages := [.assistant respC1, .user forcedFinalPrompt],
         requests := [{ tools := none, max_tokens := some 1000,
                        messages := [.assistant respC1, .user forcedFinalPrompt] }],
         invocations := [],
         rounds := 5,
         result := joinFinalText [some stoppedMsg, some "forced answer"] }) := by
  refine ⟨by decide, ?_, ?_⟩
  · exact (forced_final_at_cap envC1 [] respC1 1 [] [] [] [] 5 (by decide)).1
  · have h := (forced_final_at_cap envC1 [] respC1 1 [] [] [] [] 5 (by decide)).2
    simpa [envC1, respC1] using h

/-- Claim C2: the round counter starts at zero and is incremented once
per batch of tool calls carried by one assistant response; after `N`
completed tool rounds its value is `N` regardless of the size of each
batch. -/
theorem round_counter_counts_batches (env : Env) (messages0 : List Turn)
    (q : String) (N : Nat) (hN : N ≤ MAX_TOOL_CALLS)
    (hsome : ∀ i, i < N → ((env.respond i).tool_calls).isSome)
    (hnone : (env.respond N).tool_calls = none) :
    (processQuery env messages0 q).rounds = N := by
  unfold processQuery
  have h := loop_rounds env (env.tools.map convert_tool_format) N 0
    (messages0 ++ [.system systemPrompt] ++ [.user q] ++ [.assistant (env.respond 0)])
    [{ tools := some (env.tools.map convert_tool_format), max_tokens := none,
       messages := messages0 ++ [.system systemPrompt] ++ [.user q] }]
    [] [] 0 (by omega) (by simpa using hsome) (by simpa using hnone)
  simpa using h

/-- Witness for C2: two rounds, the first with a batch of two tool calls
and the second with one, still count as exactly two. -/
theorem round_counter_counts_batches_witness :
    2 ≤ MAX_TOOL_CALLS ∧
    (∀ i, i < 2 → ((envC2.respond i).tool_calls).isSome) ∧
    (envC2.respond 2).tool_calls = none ∧
    (processQuery envC2 [] "q").rounds = 2 := by
  have hsome : ∀ i, i < 2 → ((envC2.respond i).tool_calls).isSome := by decide
  exact ⟨by decide, hsome, rfl,
    round_counter_counts_batches envC2 [] "q" 2 (by decide) hsome rfl⟩

/-- Claim C3: a requested tool call whose raw payload fails to decode is
never handed to the tool invoker; exactly one corrective error tool turn
carrying the correlation id is appended, and the remaining calls of the
batch are still processed. -/
theorem malformed_args_never_invoke (env : Env) (st : BatchState) (tc : ToolCall)
    (rest : List ToolCall) (s e : String)
    (hraw : tc.function.arguments = some s) (hs : ¬ s.isEmpty)
    (hdec : env.decodeJson s = .error e) :
    processToolCall env st tc =
      { st with messages := st.messages ++ [.tool tc.id (.text (invalidJsonMsg e))] } ∧
    processBatch env st (tc :: rest) =
      processBatch env
        { st with messages := st.messages ++ [.tool tc.id (.text (invalidJsonMsg e))] } rest := by
  have h1 : processToolCall env st tc =
      { st with messages := st.messages ++ [.tool tc.id (.text (invalidJsonMsg e))] } := by
    simp [processToolCall, decodeArgs, hraw, hs, hdec]
  exact ⟨h1, by simp [processBatch, h1]⟩

/-- Witness for C3 at a concrete malformed payload. -/
theorem malformed_args_never_invoke_witness :
    tcC3.function.arguments = some "oops" ∧
    ¬ ("oops" : String).isEmpty ∧
    envC3.decodeJson "oops" = .error "Expecting value: line 1 column 1 (char 0)" ∧
    (processToolCall envC3 stC3 tcC3 =
      { stC3 with messages := stC3.messages ++
          [.tool "call_9" (.text (invalidJsonMsg "Expecting value: line 1 column 1 (char 0)"))] }) := by
  refine ⟨rfl, by decide, rfl, ?_⟩
  exact (malformed_args_never_invoke envC3 stC3 tcC3 [] "oops"
    "Expecting value: line 1 column 1 (char 0)" rfl (by decide) rfl).1

/-- Claim C4: a tool invocation that raises is caught and stored as an
error tool turn carrying the correlation id, the batch continues with the
remaining calls, and `process_query` still returns normally whenever the
terminating tool-free response carries string content — no tool exception
escapes. -/
theorem tool_exception_caught (env : Env) :
    (∀ (st : BatchState) (tc : ToolCall) (args : Json) (e : String),
      decodeArgs env tc.function.arguments = .ok args →
      env.callTool tc.function.name args = .error e →
      processToolCall env st tc =
        { messages := st.messages ++ [.tool tc.id (.text (execErrorMsg e))],
          finalText := st.finalText,
          invocations := st.invocations ++ [(tc.function.name, args)] }) ∧
    (∀ (st : BatchState) (tc : ToolCall) (rest : List ToolCall) (args : Json) (e : String),
      decodeArgs env tc.function.arguments = .ok args →
      env.callTool tc.function.name args = .error e →
      processBatch env st (tc :: rest) =
        processBatch env
          { messages := st.messages ++ [.tool tc.id (.text (execErrorMsg e))],
            finalText := st.finalText,
            invocations := st.invocations ++ [(tc.function.name, args)] } rest) ∧
    (∀ (messages0 : List Turn) (q : String),
      (∀ i, (env.respond i).tool_calls = none → ((env.respond i).content).isSome) →
      ((processQuery env messages0 q).result).isSome) := by
  have h1 : ∀ (st : BatchState) (tc : ToolCall) (args : Json) (e : String),
      decodeArgs env tc.function.arguments = .ok args →
      env.callTool tc.function.name args = .error e →
      processToolCall env st tc =
        { messages := st.messages ++ [.tool tc.id (.text (execErrorMsg e))],
          finalText := st.finalText,
          invocations := st.invocations ++ [(tc.function.name, args)] } := by
    intro st tc args e hdec hcall
    simp [processToolCall, hdec, hcall]
  refine ⟨h1, ?_, ?_⟩
  · intro st tc rest args e hdec hcall
    simp [processBatch, h1 st tc args e hdec hcall]
  · intro messages0 q hor
    unfold processQuery
    exact loop_result_isSome env (env.tools.map convert_tool_format)
      (MAX_TOOL_CALLS - 0) (env.respond 0) 1 _ _ [] [] 0 le_rfl rfl hor (hor 0)

/-- Witness for C4: a concrete raising invocation is converted to an
error turn and the query still returns an answer. -/
theorem tool_exception_caught_witness :
    decodeArgs envC4 tcC4.function.arguments = .ok (.obj []) ∧
    envC4.callTool "t" (.obj []) = .error "boom" ∧
    processToolCall envC4 stC4 tcC4 =
      { messages := [.tool "c1" (.text (execErrorMsg "boom"))],
        finalText := [],
        invocations := [("t", .obj [])] } ∧
    ((processQuery envC4 [] "q").result).isSome := by
  refine ⟨rfl, rfl, ?_, ?_⟩
  · have h := (tool_exception_caught envC4).1 stC4 tcC4 (.obj []) "boom" rfl rfl
    simpa [stC4, tcC4] using h
  · refine (tool_exception_caught envC4).2.2 [] "q" ?_
    intro i hi
    cases i with
    | zero => simp [envC4] at hi
    | succ n => simp [envC4]

end StandardClient

/-- Claim C5: for descriptors whose schema omits `properties` or
`required` or is not a dict, both dialect converters normalize to an
empty mapping and an empty collection; the call-site dialect yields an
empty-string description when it is missing; and in all cases the
normalized fields are present and never null. -/
theorem normalize_defaults (t : MCPTool) :
    (schemaOmits t "properties" →
      callSiteProperties t = some (.obj []) ∧ catalogProperties t = some (.obj [])) ∧
    (schemaOmits t "required" →
      callSiteRequired t = some (.arr []) ∧ catalogRequired t = some (.arr [])) ∧
    (t.description = none → callSiteDescription t = some (.str "")) ∧
    (callSiteProperties t ≠ none ∧ callSiteProperties t ≠ some .null ∧
     callSiteRequired t ≠ none ∧ callSiteRequired t ≠ some .null ∧
     catalogProperties t ≠ none ∧ catalogProperties t ≠ some .null ∧
     catalogRequired t ≠ none ∧ catalogRequired t ≠ some .null ∧
     callSiteDescription t ≠ none ∧ callSiteDescription t ≠ some .null) := by
  refine ⟨?_, ?_, ?_, ?_⟩
  · intro h
    rw [callSiteProperties_eq, catalogProperties_eq]
    obtain ⟨name, desc, schema⟩ := t
    cases schema with
    | obj fields =>
        have h2 : List.lookup "properties" fields = none := h
        constructor <;> simp [h2, pyOr]
    | null => exact ⟨rfl, rfl⟩
    | bool b => exact ⟨rfl, rfl⟩
    | num n => exact ⟨rfl, rfl⟩
    | str s => exact ⟨rfl, rfl⟩
    | arr elems => exact ⟨rfl, rfl⟩
  · intro h
    rw [callSiteRequired_eq, catalogRequired_eq]
    obtain ⟨name, desc, schema⟩ := t
    cases schema with
    | obj fields =>
        have h2 : List.lookup "required" fields = none := h
        constructor <;> simp [h2, pyOr]
    | null => exact ⟨rfl, rfl⟩
    | bool b => exact ⟨rfl, rfl⟩
    | num n => exact ⟨rfl, rfl⟩
    | str s => exact ⟨rfl, rfl⟩
    | arr elems => exact ⟨rfl, rfl⟩
  · intro h
    rw [callSiteDescription_eq, h]
    rfl
  · refine ⟨?_, ?_, ?_, ?_, ?_, ?_, ?_, ?_, ?_, ?_⟩
    · rw [callSiteProperties_eq]; simp
    · rw [callSiteProperties_eq]
      simp only [ne_eq, Option.some.injEq]
      cases hs : t.inputSchema
      case obj fields => exact pyOr_ne_null _ _ (by simp)
      all_goals simp
    · rw [callSiteRequired_eq]; simp
    · rw [callSiteRequired_eq]
      simp only [ne_eq, Option.some.injEq]
      cases hs : t.inputSchema
      case obj fields => exact pyOr_ne_null _ _ (by simp)
      all_goals simp
    · rw [catalogProperties_eq]; simp
    · rw [catalogProperties_eq]
      simp only [ne_eq, Option.some.injEq]
      cases hs : t.inputSchema
      case obj fields => exact pyOr_ne_null _ _ (by simp)
      all_goals simp
    · rw [catalogRequired_eq]; simp
    · rw [catalogRequired_eq]
      simp only [ne_eq, Option.some.injEq]
      cases hs : t.inputSchema
      case obj fields => exact pyOr_ne_null _ _ (by simp)
      all_goals simp
    · rw [callSiteDescription_eq]; simp
    · rw [callSiteDescription_eq]; simp

/-- Witness for C5 at a descriptor with a non-dict schema and a missing
description. -/
theorem normalize_defaults_witness :
    schemaOmits tC5 "properties" ∧ schemaOmits tC5 "required" ∧ tC5.description = none ∧
    callSiteProperties tC5 = some (.obj []) ∧ catalogProperties tC5 = some (.obj []) ∧
    callSiteRequired tC5 = some (.arr []) ∧ catalogRequired tC5 = some (.arr []) ∧
    callSiteDescription tC5 = some (.str "") := by
  refine ⟨trivial, trivial, rfl, ?_, ?_, ?_, ?_, ?_⟩
  · exact ((normalize_defaults tC5).1 trivial).1
  · exact ((normalize_defaults tC5).1 trivial).2
  · exact ((normalize_defaults tC5).2.1 trivial).1
  · exact ((normalize_defaults tC5).2.1 trivial).2
  · exact (normalize_defaults tC5).2.2.1 rfl

namespace StandardClient

/-- Claim C6 (refuted, code bug): the first completion of a query is
appended to the conversation twice — once before the loop and once at the
top of its first iteration — so one completion yields two identical
assistant turns. -/
theorem duplicate_first_assistant_turn :
    (processQuery envC6 [] "q").messages =
      [.system systemPrompt, .user "q",
       .assistant { content := some "hi", tool_calls := none },
       .assistant { content := some "hi", tool_calls := none }] ∧
    (processQuery envC6 [] "q").requests.length = 1 := by
  constructor <;> simp [processQuery, loop, envC6, MAX_TOOL_CALLS]

/-- Claim C7: the conversation is append-only — the messages a query (or
any loop continuation) starts from are always a prefix of the messages it
ends with, so no turn is ever removed, truncated or replaced, within a
query and across successive queries of a session. -/
theorem conversation_append_only :
    (∀ (env : Env) (messages0 : List Turn) (q : String),
      messages0 <+: (processQuery env messages0 q).messages) ∧
    (∀ (env : Env) (avail : List Json) (resp : ModelMessage) (reqIdx : Nat)
      (msgs : List Turn) (reqs : List ModelRequest) (ft : List (Option String))
      (inv : List (String × Json)) (count : Nat),
      msgs <+: (loop env avail resp reqIdx msgs reqs ft inv count).messages) := by
  constructor
  · intro env messages0 q
    unfold processQuery
    have h1 : messages0 <+:
        messages0 ++ [Turn.system systemPrompt] ++ [Turn.user q] ++
          [Turn.assistant (env.respond 0)] :=
      ⟨[Turn.system systemPrompt, Turn.user q, Turn.assistant (env.respond 0)], by simp⟩
    exact h1.trans (loop_messages_mono env _ (MAX_TOOL_CALLS - 0) _ _ _ _ _ _ _ le_rfl)
  · intro env avail resp reqIdx msgs reqs ft inv count
    exact loop_messages_mono env avail (MAX_TOOL_CALLS - count) resp reqIdx
      msgs reqs ft inv count le_rfl

/-- Claim C8 (refuted, code bug): when the terminating tool-free response
has absent (`None`) content, joining `final_text` raises instead of
returning a textual answer; an empty-string content is returned as-is. -/
theorem none_content_final_raises :
    (processQuery envC8 [] "q").result = none ∧
    (processQuery envC8empty [] "q").result = some "" := by
  constructor
  · simp [processQuery, loop, envC8, MAX_TOOL_CALLS, joinFinalText]
  · simp [processQuery, loop, envC8empty, MAX_TOOL_CALLS, joinFinalText]
    decide

set_option maxRecDepth 8192 in
/-- Claim C9: the loop never deduplicates tool invocations — a decodable
requested call is always handed to the invoker, even when the identical
(name, arguments) invocation already happened; a two-round run with the
same call twice invokes the tool twice; the no-repeat rule exists only as
advisory text inside the system prompt. -/
theorem no_dedup_enforcement (env : Env) :
    (∀ (st : BatchState) (tc : ToolCall) (args : Json),
      (tc.function.name, args) ∈ st.invocations →
      decodeArgs env tc.function.arguments = .ok args →
      (processToolCall env st tc).invocations =
        st.invocations ++ [(tc.function.name, args)]) ∧
    (processQuery envC9 [] "search for martin moder on the web").invocations =
      [("search", argsC9), ("search", argsC9)] ∧
    (∃ a b : String, systemPrompt =
      a ++ ("Never call a tool twice with the same arguments." ++ b)) := by
  refine ⟨?_, ?_, ?_⟩
  · intro st tc args hmem hdec
    simp only [processToolCall, hdec]
    cases env.callTool tc.function.name args <;> simp
  · have hne : rawC9.isEmpty = false := by rfl
    simp [processQuery, loop, envC9, MAX_TOOL_CALLS, processBatch, processToolCall,
      decodeArgs, tcC9a, tcC9b, hne]
  · exact ⟨"You are a helpful assistant with access to tools.\n\nRules:\n1. Call tools when you need information. Use valid JSON for arguments.\n2. Once you have enough information, respond with a final answer (no more tool calls).\n3. ",
      "\n4. Keep search queries short and specific (3-6 words work best).", by rfl⟩

/-- Witness for C9: despite the identical invocation being in the trace
already, the call is invoked again. -/
theorem no_dedup_enforcement_witness :
    ("search", argsC9) ∈ stC9.invocations ∧
    decodeArgs envC9 tcC9b.function.arguments = .ok argsC9 ∧
    (processToolCall envC9 stC9 tcC9b).invocations =
      stC9.invocations ++ [("search", argsC9)] := by
  have hmem : ("search", argsC9) ∈ stC9.invocations := by simp [stC9]
  have hdec : decodeArgs envC9 tcC9b.function.arguments = .ok argsC9 := by rfl
  exact ⟨hmem, hdec, (no_dedup_enforcement envC9).1 stC9 tcC9b argsC9 hmem hdec⟩

/-- Claim C10: a requested tool call whose raw payload is falsy (absent
or empty) decodes to the empty mapping instead of failing, and the tool
is invoked with no arguments. -/
theorem falsy_args_decode_empty (env : Env) (st : BatchState) (tc : ToolCall)
    (h : tc.function.arguments = none ∨ tc.function.arguments = some "") :
    decodeArgs env tc.function.arguments = .ok (.obj []) ∧
    (processToolCall env st tc).invocations =
      st.invocations ++ [(tc.function.name, .obj [])] := by
  have hd : decodeArgs env tc.function.arguments = .ok (.obj []) := by
    rcases h with h | h <;> rw [h] <;> rfl
  refine ⟨hd, ?_⟩
  simp only [processToolCall, hd]
  cases env.callTool tc.function.name (.obj []) <;> simp

/-- Witness for C10 at a call with absent arguments. -/
theorem falsy_args_decode_empty_witness :
    (tcC10.function.arguments = none ∨ tcC10.function.arguments = some "") ∧
    decodeArgs envC10 tcC10.function.arguments = .ok (.obj []) ∧
    (processToolCall envC10 stC10 tcC10).invocations =
      stC10.invocations ++ [("noargs", .obj [])] := by
  have h := falsy_args_decode_empty envC10 stC10 tcC10 (Or.inl rfl)
  exact ⟨Or.inl rfl, h.1, h.2⟩

end StandardClient
